import Mathlib

/-!
Verification of the partition-window translation logic of src/preload.c
(imagefile-partition). The C code is shallowly embedded: the boot sector is a
list of byte values, machine arithmetic that can wrap (the uint32_t
multiplications in get_partition) is modelled with explicit reduction modulo
2 ^ 32, off_t quantities are mathematical integers (all values the program
computes fit in a 64-bit signed integer), and fatal / fallible paths are
Except values whose error constructors correspond to the distinct diagnostic
exits of the source.
-/

set_option maxRecDepth 40000

deriving instance DecidableEq for Except

namespace Preload

/-- Bytes of the boot sector as returned by the read in get_partition
(src/preload.c:52); `byteAt mbr i` is `mbr[i]`, with 0 for an out-of-range
index (never reached when the length is 512 and i < 512). -/
def byteAt (mbr : List Nat) (i : Nat) : Nat := mbr.getD i 0

/-- Little-endian 32-bit read at byte offset `off`, the value of the packed
uint32_t fields start_lba / num_sectors of part_t on the little-endian host
(src/preload.c:25-26 and 70-71; htole32 is the identity there). -/
def le32 (mbr : List Nat) (off : Nat) : Nat :=
  byteAt mbr off + 256 * byteAt mbr (off + 1) + 65536 * byteAt mbr (off + 2) +
    16777216 * byteAt mbr (off + 3)

/-- Partition window: `base` is partition_base_bytes, `size` is
partition_size_bytes, `endB` is partition_end_bytes (src/preload.c:32-34). -/
structure Window where
  base : Int
  size : Int
  endB : Int
  deriving DecidableEq

/-- Failure exits of get_partition, one per diagnostic branch:
short read (src/preload.c:53), missing boot signature (:58), the
extended-partition branch (:65), zero start_lba or num_sectors (:73). -/
inductive GetPartErr
  | shortRead
  | badSignature
  | extendedPart
  | zeroField
  deriving DecidableEq

/-- Byte offset of the 16-byte table entry for the 1-based index part_num:
446 + (part_num - 1) * 16 (src/preload.c:64). -/
def entryOff (part_num : Int) : Nat := (446 + (part_num - 1) * 16).toNat

/-- start_lba field of the selected entry (entry offset + 8, little endian). -/
def lbaOf (mbr : List Nat) (part_num : Int) : Nat := le32 mbr (entryOff part_num + 8)

/-- num_sectors field of the selected entry (entry offset + 12, little endian). -/
def sectorsOf (mbr : List Nat) (part_num : Int) : Nat := le32 mbr (entryOff part_num + 12)

/-- Window computed at src/preload.c:78-80: `start_lba * 512` and
`num_sectors * 512` are uint32_t multiplications and wrap modulo 2 ^ 32
before being widened to off_t; the end is their off_t (64-bit) sum, which
does not wrap. -/
def mkWindow (start_lba num_sectors : Nat) : Window :=
  ⟨((start_lba * 512) % 2 ^ 32 : Nat), ((num_sectors * 512) % 2 ^ 32 : Nat),
    (((start_lba * 512) % 2 ^ 32 : Nat) : Int) + (((num_sectors * 512) % 2 ^ 32 : Nat) : Int)⟩

/-- get_partition (src/preload.c:40-88), taking the bytes the read returned
and the partition index (the open failure exit is outside the model: the
sector bytes are the input). A short read, a missing 0x55 0xAA signature,
an index that fails the `part_num < 4` test, and a zero start_lba or
num_sectors each take the corresponding error exit, in source order. -/
def get_partition (mbr : List Nat) (part_num : Int) : Except GetPartErr Window :=
  if mbr.length ≠ 512 then .error .shortRead
  else if byteAt mbr 511 ≠ 0xAA ∨ byteAt mbr 510 ≠ 0x55 then .error .badSignature
  else if part_num < 4 then
    if lbaOf mbr part_num = 0 ∨ sectorsOf mbr part_num = 0 then .error .zeroField
    else .ok (mkWindow (lbaOf mbr part_num) (sectorsOf mbr part_num))
  else .error .extendedPart

/-- Little-endian 4-byte encoding of n. -/
def toLE4 (n : Nat) : List Nat := [n % 256, n / 256 % 256, n / 65536 % 256, n / 16777216 % 256]

/-- 512-byte sector with a valid signature whose first table entry (bytes
446-461) has start_lba L and num_sectors S and every other byte zero. -/
def sectorLS (L S : Nat) : List Nat :=
  List.replicate 454 0 ++ toLE4 L ++ toLE4 S ++ List.replicate 48 0 ++ [0x55, 0xAA]

/-- 512-byte sector with a valid signature whose fourth table entry (bytes
494-509) has start_lba 2048 and num_sectors 65536 and every other byte zero. -/
def entry4Sector : List Nat :=
  List.replicate 502 0 ++ toLE4 2048 ++ toLE4 65536 ++ [0x55, 0xAA]

/-- C1: the claim says indices 1-4 select the primary entry at
446 + (i - 1) * 16 and only 5-8 take the fatal extended-partition exit; the
code's `part_num < 4` test (src/preload.c:63) additionally rejects index 4 -
a primary slot with a valid, non-zero entry in this sector - through the very
branch whose diagnostic is about extended partitions, while indices 5-8 do
fail there as the claim states. -/
theorem c1_partition4_rejected :
    get_partition entry4Sector 4 = .error .extendedPart ∧
    get_partition entry4Sector 5 = .error .extendedPart ∧
    get_partition entry4Sector 8 = .error .extendedPart ∧
    lbaOf entry4Sector 4 = 2048 ∧ sectorsOf entry4Sector 4 = 65536 ∧
    byteAt entry4Sector 510 = 0x55 ∧ byteAt entry4Sector 511 = 0xAA := by
  decide

/-- C2 counterexample: with start_lba L = 8388608 (= 2 ^ 23) and
num_sectors S = 1 the claim demands base = L * 512 = 4294967296 exactly, but
the uint32_t multiplication wraps modulo 2 ^ 32 and the code computes
base = 0. -/
theorem c2_wrap_cex :
    get_partition (sectorLS 8388608 1) 1 = .ok ⟨0, 512, 512⟩ ∧
    (8388608 * 512 : Int) = 4294967296 ∧ (0 : Int) ≠ 4294967296 := by
  decide

/-- C2 amended: for a full 512-byte sector with a valid signature and a
selected index the code accepts (1 ≤ i < 4) whose entry has non-zero
start-sector L and sector-count S, resolution succeeds with
base = (L * 512) mod 2 ^ 32, size = (S * 512) mod 2 ^ 32 and
end = base + size; the values are the exact products only when those
products are below 2 ^ 32. -/
theorem c2_window_amended (mbr : List Nat) (i : Int)
    (hlen : mbr.length = 512)
    (h510 : byteAt mbr 510 = 0x55) (h511 : byteAt mbr 511 = 0xAA)
    (h1 : 1 ≤ i) (h4 : i < 4)
    (hL : lbaOf mbr i ≠ 0) (hS : sectorsOf mbr i ≠ 0) :
    get_partition mbr i =
      .ok ⟨((lbaOf mbr i * 512) % 2 ^ 32 : Nat), ((sectorsOf mbr i * 512) % 2 ^ 32 : Nat),
        (((lbaOf mbr i * 512) % 2 ^ 32 : Nat) : Int) +
          (((sectorsOf mbr i * 512) % 2 ^ 32 : Nat) : Int)⟩ := by
  unfold get_partition
  rw [if_neg (by simp [hlen]), if_neg (by simp [h510, h511]), if_pos h4,
    if_neg (by simp [hL, hS])]
  rfl

/-- C2 witness: the worked example of the spec (start sector 2048, count
204800, partition 1) gives base 1048576, size 104857600, end 105906176. -/
theorem c2_window_amended_w :
    get_partition (sectorLS 2048 204800) 1 = .ok ⟨1048576, 104857600, 105906176⟩ := by
  have h := c2_window_amended (sectorLS 2048 204800) 1 (by decide) (by decide) (by decide)
    (by decide) (by decide) (by decide) (by decide)
  exact h.trans (by decide)

/-- Outcome of the lseek override (src/preload.c:140-181): `einval` is the
errno = EINVAL, return -1 exit with no underlying call (:166-168);
`realError e` propagates a failed real lseek unchanged (:172-173);
`aborted` is the abort on a successful real result below the partition base
(:178-179); `ok pos` is the returned partition-relative position (:176). -/
inductive SeekOutcome
  | einval
  | realError (e : Int)
  | aborted
  | ok (pos : Int)
  deriving DecidableEq

/-- Translation step of the lseek override, the switch at src/preload.c:152-169:
for SEEK_SET (0) the offset is shifted by the partition base and clamped to
the partition end; SEEK_CUR (1) passes through unchanged; SEEK_END (2) is
rewritten to SEEK_SET at the partition end, ignoring the caller's offset;
any other whence gives none (EINVAL, no underlying call). The result is the
(offset, whence) pair handed to the real lseek. -/
def translateSeek (w : Window) (offset whence : Int) : Option (Int × Int) :=
  if whence = 0 then
    some (if offset + w.base > w.endB then w.endB else offset + w.base, 0)
  else if whence = 1 then
    some (offset, 1)
  else if whence = 2 then
    some (w.endB, 0)
  else none

/-- Post-processing of the real lseek result (src/preload.c:171-180): a
negative result is propagated, a result at or above the partition base is
returned relative to the base, and a smaller successful result aborts. -/
def finishSeek (w : Window) (ret : Int) : SeekOutcome :=
  if ret < 0 then .realError ret
  else if w.base ≤ ret then .ok (ret - w.base)
  else .aborted

/-- Whole lseek override body after the lazy-resolution prologue
(src/preload.c:152-181), with the real lseek supplied as an oracle from
(absolute offset, whence) to its returned value. -/
def lseekIntercept (w : Window) (offset whence : Int) (real : Int → Int → Int) : SeekOutcome :=
  match translateSeek w offset whence with
  | none => .einval
  | some (o, wh) => finishSeek w (real o wh)

/-- lseek override under the assumption that the underlying real lseek
succeeds at every requested absolute position (it returns that position). -/
def lseekWhenRealSucceeds (w : Window) (offset whence : Int) : SeekOutcome :=
  lseekIntercept w offset whence (fun o _ => o)

/-- Well-formedness every window computed by get_partition has: non-negative
base and size, and end = base + size. -/
def wfWindow (w : Window) : Prop := 0 ≤ w.base ∧ 0 ≤ w.size ∧ w.endB = w.base + w.size

instance (w : Window) : Decidable (wfWindow w) :=
  inferInstanceAs (Decidable (0 ≤ w.base ∧ 0 ≤ w.size ∧ w.endB = w.base + w.size))

/-- Windows produced by get_partition are well formed. -/
theorem get_partition_wf (mbr : List Nat) (i : Int) (w : Window)
    (h : get_partition mbr i = .ok w) : wfWindow w := by
  unfold get_partition at h
  split at h
  · cases h
  split at h
  · cases h
  split at h
  · split at h
    · cases h
    · cases h
      refine ⟨?_, ?_, rfl⟩ <;> exact Int.natCast_nonneg _
  · cases h

/-- C3: with a well-formed window of size `size`, and the real lseek
succeeding at the requested absolute position, an absolute-from-start seek
to X with 0 ≤ X ≤ size returns position X; an absolute-from-start seek to
X > size is clamped and returns exactly size; an absolute-from-end seek
returns size whatever offset argument is supplied. -/
theorem c3_seek_positions (w : Window) (X : Int) (hw : wfWindow w) :
    (0 ≤ X → X ≤ w.size → lseekWhenRealSucceeds w X 0 = .ok X) ∧
    (w.size < X → lseekWhenRealSucceeds w X 0 = .ok w.size) ∧
    lseekWhenRealSucceeds w X 2 = .ok w.size := by
  obtain ⟨hb, hs, he⟩ := hw
  refine ⟨fun h0 hX => ?_, fun hX => ?_, ?_⟩
  · unfold lseekWhenRealSucceeds lseekIntercept
    have h1 : translateSeek w X 0 = some (X + w.base, 0) := by
      unfold translateSeek
      rw [if_pos rfl, if_neg (by omega)]
    rw [h1]
    show finishSeek w (X + w.base) = .ok X
    unfold finishSeek
    rw [if_neg (by omega), if_pos (by omega)]
    congr 1
    omega
  · unfold lseekWhenRealSucceeds lseekIntercept
    have h1 : translateSeek w X 0 = some (w.endB, 0) := by
      unfold translateSeek
      rw [if_pos rfl, if_pos (by omega)]
    rw [h1]
    show finishSeek w w.endB = .ok w.size
    unfold finishSeek
    rw [if_neg (by omega), if_pos (by omega)]
    congr 1
    omega
  · unfold lseekWhenRealSucceeds lseekIntercept
    have h1 : translateSeek w X 2 = some (w.endB, 0) := by
      unfold translateSeek
      rw [if_neg (by omega), if_neg (by omega), if_pos rfl]
    rw [h1]
    show finishSeek w w.endB = .ok w.size
    unfold finishSeek
    rw [if_neg (by omega), if_pos (by omega)]
    congr 1
    omega

/-- C3 witness: for the window of the spec's example (base 1048576, size
104857600, end 105906176), a seek to size lands on the boundary un-clamped,
a seek past it is clamped to size, and a from-end seek with offset 7 reports
size. -/
theorem c3_seek_positions_w :
    lseekWhenRealSucceeds ⟨1048576, 104857600, 105906176⟩ 104857600 0 = .ok 104857600 ∧
    lseekWhenRealSucceeds ⟨1048576, 104857600, 105906176⟩ 104857700 0 = .ok 104857600 ∧
    lseekWhenRealSucceeds ⟨1048576, 104857600, 105906176⟩ 7 2 = .ok 104857600 :=
  ⟨(c3_seek_positions ⟨1048576, 104857600, 105906176⟩ 104857600 (by decide)).1
      (by decide) (by decide),
    (c3_seek_positions ⟨1048576, 104857600, 105906176⟩ 104857700 (by decide)).2.1 (by decide),
    (c3_seek_positions ⟨1048576, 104857600, 105906176⟩ 7 (by decide)).2.2⟩

/-- C6 counterexample: an absolute-from-start seek with the negative offset
-1 against the window (base 1024, size 512, end 1536) hands the real lseek
the absolute offset 1023, which is below the partition base - refuting the
claim that the translated offset is never below the base and that a
successful real result below the base is impossible. The code then aborts,
as the second half of the claim describes. -/
theorem c6_below_base_cex :
    translateSeek ⟨1024, 512, 1536⟩ (-1) 0 = some (1023, 0) ∧
    (1023 : Int) < 1024 ∧
    lseekWhenRealSucceeds ⟨1024, 512, 1536⟩ (-1) 0 = .aborted := by
  decide

/-- C6 amended: for a well-formed window, an absolute-from-start request with
a non-negative offset and every absolute-from-end request hand the real
lseek an absolute offset at or above the partition base (a negative
from-start offset can go below it, see the counterexample); and whenever the
real lseek successfully returns a position below the base, the override
aborts the process instead of returning a position. -/
theorem c6_base_invariant :
    (∀ (w : Window) (X o wh : Int), wfWindow w → 0 ≤ X →
      translateSeek w X 0 = some (o, wh) → w.base ≤ o) ∧
    (∀ (w : Window) (X o wh : Int), wfWindow w →
      translateSeek w X 2 = some (o, wh) → w.base ≤ o) ∧
    (∀ (w : Window) (ret : Int), 0 ≤ ret → ret < w.base →
      finishSeek w ret = .aborted) := by
  refine ⟨fun w X o wh hw hX ht => ?_, fun w X o wh hw ht => ?_, fun w ret h0 hlt => ?_⟩
  · obtain ⟨hb, hs, he⟩ := hw
    unfold translateSeek at ht
    rw [if_pos rfl] at ht
    simp only [Option.some.injEq, Prod.mk.injEq] at ht
    obtain ⟨ho, -⟩ := ht
    subst ho
    split <;> omega
  · obtain ⟨hb, hs, he⟩ := hw
    unfold translateSeek at ht
    rw [if_neg (by omega), if_neg (by omega), if_pos rfl] at ht
    simp only [Option.some.injEq, Prod.mk.injEq] at ht
    omega
  · unfold finishSeek
    rw [if_neg (by omega), if_neg (by omega)]

/-- C6 witness: concrete instances of the three amended conjuncts at the
window (base 1024, size 512, end 1536). -/
theorem c6_base_invariant_w :
    (1024 : Int) ≤ 1029 ∧ (1024 : Int) ≤ 1536 ∧
    finishSeek ⟨1024, 512, 1536⟩ 100 = .aborted :=
  ⟨c6_base_invariant.1 ⟨1024, 512, 1536⟩ 5 1029 0 (by decide) (by decide) (by decide),
    c6_base_invariant.2.1 ⟨1024, 512, 1536⟩ 99 1536 0 (by decide) (by decide),
    c6_base_invariant.2.2 ⟨1024, 512, 1536⟩ 100 (by decide) (by decide)⟩

/-- C8: for any whence other than SEEK_SET (0), SEEK_CUR (1) or SEEK_END (2),
the override fails with the invalid-argument exit, independently of the real
lseek oracle (so no underlying seek is performed: the translation step
already returns none). -/
theorem c8_invalid_whence (w : Window) (offset whence : Int) (real : Int → Int → Int)
    (h0 : whence ≠ 0) (h1 : whence ≠ 1) (h2 : whence ≠ 2) :
    translateSeek w offset whence = none ∧
    lseekIntercept w offset whence real = .einval := by
  have ht : translateSeek w offset whence = none := by
    unfold translateSeek
    rw [if_neg h0, if_neg h1, if_neg h2]
  refine ⟨ht, ?_⟩
  unfold lseekIntercept
  rw [ht]

/-- C8 witness: whence = 3 with an always-succeeding oracle. -/
theorem c8_invalid_whence_w :
    translateSeek ⟨1024, 512, 1536⟩ 7 3 = none ∧
    lseekIntercept ⟨1024, 512, 1536⟩ 7 3 (fun o _ => o) = .einval :=
  c8_invalid_whence ⟨1024, 512, 1536⟩ 7 3 (fun o _ => o) (by decide) (by decide) (by decide)

/-- fallocate override (src/preload.c:228-232): a pure stub that ignores all
four arguments and returns 0 with no underlying call of any kind. -/
def fallocate (fd mode offset len : Int) : Int := 0

/-- C9: the preallocate override returns success (0) for every combination of
arguments; being a constant function of its arguments, it performs no
allocation, bounds check or underlying call. -/
theorem c9_fallocate_stub (fd mode offset len : Int) : fallocate fd mode offset len = 0 :=
  rfl

/-- 512-byte sector of zero bytes: length is right but the signature bytes at
510-511 are 0x00 0x00. -/
def allZeroSector : List Nat := List.replicate 512 0

/-- 512-byte sector with a valid signature and every other byte zero, so the
selected entry of any index has start_lba = num_sectors = 0. -/
def sigOnlySector : List Nat := List.replicate 510 0 ++ [0x55, 0xAA]

/-- C5: resolution fails for every full 512-byte sector whose bytes at
510-511 are not exactly 0x55 0xAA (the signature exit comes before any entry
is read); for a sector with a correct signature it fails with the zero-field
exit whenever the code selects an entry (1 ≤ i < 4, see C1 for index 4)
whose start-sector or sector-count is zero; and for every index i ≥ 4 it
fails before reading any entry fields - so resolution fails for every index
in 1-8 whose claimed entry has a zero field. -/
theorem c5_resolution_fails :
    (∀ (mbr : List Nat) (i : Int), mbr.length = 512 →
      ¬(byteAt mbr 510 = 0x55 ∧ byteAt mbr 511 = 0xAA) →
      get_partition mbr i = .error .badSignature) ∧
    (∀ (mbr : List Nat) (i : Int), mbr.length = 512 →
      byteAt mbr 510 = 0x55 → byteAt mbr 511 = 0xAA → 1 ≤ i → i < 4 →
      (lbaOf mbr i = 0 ∨ sectorsOf mbr i = 0) →
      get_partition mbr i = .error .zeroField) ∧
    (∀ (mbr : List Nat) (i : Int), mbr.length = 512 →
      byteAt mbr 510 = 0x55 → byteAt mbr 511 = 0xAA → 4 ≤ i →
      get_partition mbr i = .error .extendedPart) := by
  refine ⟨?_, ?_, ?_⟩
  · intro mbr i hlen hsig
    unfold get_partition
    rw [if_neg (by simp [hlen]), if_pos (by tauto)]
  · intro mbr i hlen h510 h511 _h1 h4 hz
    unfold get_partition
    rw [if_neg (by simp [hlen]), if_neg (by simp [h510, h511]), if_pos h4, if_pos hz]
  · intro mbr i hlen h510 h511 h4
    unfold get_partition
    rw [if_neg (by simp [hlen]), if_neg (by simp [h510, h511]), if_neg (by omega)]

/-- C5 witness: the all-zero 512-byte sector fails the signature check, the
signature-only sector fails on the zero entry fields at index 1, and index 5
fails before any entry field is read. -/
theorem c5_resolution_fails_w :
    get_partition allZeroSector 1 = .error .badSignature ∧
    get_partition sigOnlySector 1 = .error .zeroField ∧
    get_partition sigOnlySector 5 = .error .extendedPart :=
  ⟨c5_resolution_fails.1 allZeroSector 1 (by decide) (by decide),
    c5_resolution_fails.2.1 sigOnlySector 1 (by decide) (by decide) (by decide) (by decide)
      (by decide) (by decide),
    c5_resolution_fails.2.2 sigOnlySector 5 (by decide) (by decide) (by decide) (by decide)⟩

/-- Stat buffer: the fields of struct stat the override reads or writes
(st_mode, st_dev, st_ino, st_size), plus `other`, which stands for all the
remaining fields (timestamps, link count, uid/gid, ...) that the override
never touches. off_t st_size is an integer; dev_t / ino_t are naturals. -/
structure StatBuf where
  st_dev : Nat
  st_ino : Nat
  st_mode : Nat
  st_size : Int
  other : Nat
  deriving DecidableEq

/-- S_ISREG(m): (m & S_IFMT) == S_IFREG, with S_IFMT = 0xF000 and
S_IFREG = 0x8000 on the host. -/
def S_ISREG (m : Nat) : Bool := m &&& 0xF000 == 0x8000

/-- File-scope state the stat overrides read: file_dev, file_ino
(src/preload.c:30-31) and partition_size_bytes (:32). -/
structure Globals where
  file_dev : Nat
  file_ino : Nat
  partition_size_bytes : Int
  deriving DecidableEq

/-- fixup_statbuf (src/preload.c:183-194): when the real call returned 0 and
the buffer describes a regular file whose device and inode match the
captured identity, st_size is overwritten with the partition size; in every
other case the buffer is left exactly as the real call produced it. The
return value is always the real call's return value. -/
def fixup_statbuf (g : Globals) (ret : Int) (buf : StatBuf) : Int × StatBuf :=
  if ret == 0 && S_ISREG buf.st_mode && buf.st_dev == g.file_dev && buf.st_ino == g.file_ino
  then (ret, { buf with st_size := g.partition_size_bytes })
  else (ret, buf)

/-- Stat-by-path override __xstat (src/preload.c:196-210) after the lazy
prologue: the real __xstat runs first; `real` is its outcome (return value,
buffer contents after the call); the result is fixup_statbuf of that
outcome. -/
def __xstat (g : Globals) (real : Int × StatBuf) : Int × StatBuf :=
  fixup_statbuf g real.1 real.2

/-- Stat-by-descriptor override __fxstat (src/preload.c:212-226) after the
lazy prologue, identical post-processing. -/
def __fxstat (g : Globals) (real : Int × StatBuf) : Int × StatBuf :=
  fixup_statbuf g real.1 real.2

/-- C4: both stat overrides return the real call's return value unchanged;
st_dev, st_ino, st_mode and all other fields are never modified; and st_size
is replaced by the partition size exactly when the real call succeeded
(returned 0) on a regular file whose device and inode match the captured
identity, and is left unchanged otherwise (in particular a real failure, a
non-regular file, or a non-matching file passes through unmodified). -/
theorem c4_stat_passthrough (g : Globals) (ret : Int) (buf : StatBuf) :
    __xstat g (ret, buf) = __fxstat g (ret, buf) ∧
    (__xstat g (ret, buf)).1 = ret ∧
    (__xstat g (ret, buf)).2.st_dev = buf.st_dev ∧
    (__xstat g (ret, buf)).2.st_ino = buf.st_ino ∧
    (__xstat g (ret, buf)).2.st_mode = buf.st_mode ∧
    (__xstat g (ret, buf)).2.other = buf.other ∧
    (__xstat g (ret, buf)).2.st_size =
      (if ret == 0 && S_ISREG buf.st_mode && buf.st_dev == g.file_dev &&
          buf.st_ino == g.file_ino
        then g.partition_size_bytes else buf.st_size) := by
  unfold __xstat __fxstat fixup_statbuf
  split <;> simp_all

/-- Process-wide mutable state of the translator: one resolved-pointer flag
per overridden operation with a real underlying operation (real_lseek,
real_stat, real_fstat, src/preload.c:36-38; fallocate has none), the
`initialized` flag (:29, named inited here), and the values the one-time
setup fills in: captured identity (:30-31) and partition window (:32-34,
none while unset). -/
structure ProcState where
  realLseek : Bool
  realStat : Bool
  realFstat : Bool
  inited : Bool
  file_dev : Nat
  file_ino : Nat
  win : Option Window
  deriving DecidableEq

/-- State at process start: no pointer resolved, flag clear, window unset. -/
def initialState : ProcState := ⟨false, false, false, false, 0, 0, none⟩

/-- Environment the one-time setup reads: device and inode of the configured
image file (the fstat at src/preload.c:110), the boot-sector bytes of that
file, and the parsed P_NUM partition index (atoi at :127). The model covers
runs where P_FILE is set and the file opens and stats successfully; the
other exits abort the process before any state is observable. -/
structure InitEnv where
  dev : Nat
  ino : Nat
  sector : List Nat
  partNum : Int

/-- Body of init after the flag is set (src/preload.c:96-137): capture the
file identity, validate the index range 1-8 (abort outside it), resolve the
partition via get_partition (abort on failure). Every abort terminates the
process, modelled as the error case. -/
def initWork (env : InitEnv) (s : ProcState) : Except Unit ProcState :=
  if env.partNum < 1 ∨ 8 < env.partNum then .error ()
  else
    match get_partition env.sector env.partNum with
    | .ok w => .ok { s with file_dev := env.dev, file_ino := env.ino, win := some w }
    | .error _ => .error ()

/-- init (src/preload.c:90-138): if the flag is already set, return at once
with the state untouched; otherwise set the flag FIRST and only then run the
body - so a nested call during the body sees the flag set. -/
def init (env : InitEnv) (s : ProcState) : Except Unit ProcState :=
  if s.inited then .ok s
  else initWork env { s with inited := true }

/-- The four overridden operations. -/
inductive Op
  | oLseek
  | oXstat
  | oFxstat
  | oFallocate
  deriving DecidableEq

/-- Lazy-resolution prologue each override runs before translating
(src/preload.c:142-150, 198-206, 214-222): when the operation's pointer is
still unresolved, resolve it (the dlsym, which on failure would abort) and
call init; otherwise do nothing. fallocate (:228-232) has no prologue at
all. The Bool records whether this call performed a resolution. -/
def opPrologue (env : InitEnv) (op : Op) (s : ProcState) : Except Unit (ProcState × Bool) :=
  match op with
  | .oLseek =>
    if s.realLseek then .ok (s, false)
    else (init env { s with realLseek := true }).map (fun t => (t, true))
  | .oXstat =>
    if s.realStat then .ok (s, false)
    else (init env { s with realStat := true }).map (fun t => (t, true))
  | .oFxstat =>
    if s.realFstat then .ok (s, false)
    else (init env { s with realFstat := true }).map (fun t => (t, true))
  | .oFallocate => .ok (s, false)

/-- Resolved-pointer flag of an operation; fallocate has no pointer to
resolve and counts as permanently resolved. -/
def ptrOf (op : Op) (s : ProcState) : Bool :=
  match op with
  | .oLseek => s.realLseek
  | .oXstat => s.realStat
  | .oFxstat => s.realFstat
  | .oFallocate => true

/-- State after the dlsym assignment of an operation's pointer. -/
def setPtr (op : Op) (s : ProcState) : ProcState :=
  match op with
  | .oLseek => { s with realLseek := true }
  | .oXstat => { s with realStat := true }
  | .oFxstat => { s with realFstat := true }
  | .oFallocate => s

/-- Whether any of the three real-operation pointers has been resolved. -/
def ptrsAny (s : ProcState) : Bool := s.realLseek || s.realStat || s.realFstat

/-- Run the prologues of a sequence of intercepted calls; none means some
call aborted the process. -/
def runTrace (env : InitEnv) : List Op → ProcState → Option ProcState
  | [], s => some s
  | o :: rest, s =>
    match opPrologue env o s with
    | .ok (s2, _) => runTrace env rest s2
    | .error _ => none

/-- Number of resolutions of op's pointer performed along a call sequence
(a call that aborts during its own resolution still counts it, and nothing
runs afterwards). -/
def resolveCount (env : InitEnv) (op : Op) : List Op → ProcState → Nat
  | [], _ => 0
  | o :: rest, s =>
    match opPrologue env o s with
    | .ok (s2, r) => (if o = op ∧ r = true then 1 else 0) + resolveCount env op rest s2
    | .error _ => if o = op then 1 else 0

theorem initWork_ok_fields (env : InitEnv) (s t : ProcState) (h : initWork env s = .ok t) :
    t.realLseek = s.realLseek ∧ t.realStat = s.realStat ∧ t.realFstat = s.realFstat ∧
    t.inited = s.inited := by
  unfold initWork at h
  split at h
  · cases h
  · split at h
    · cases h
      exact ⟨rfl, rfl, rfl, rfl⟩
    · cases h

theorem init_ok_fields (env : InitEnv) (s t : ProcState) (h : init env s = .ok t) :
    t.realLseek = s.realLseek ∧ t.realStat = s.realStat ∧ t.realFstat = s.realFstat ∧
    t.inited = true := by
  unfold init at h
  split at h
  next hin =>
    cases h
    exact ⟨rfl, rfl, rfl, hin⟩
  next hin =>
    exact initWork_ok_fields env _ t h

theorem ptr_true_prologue (env : InitEnv) (op : Op) (s : ProcState) (h : ptrOf op s = true) :
    opPrologue env op s = .ok (s, false) := by
  cases op <;> simp only [opPrologue, ptrOf] at h ⊢ <;> simp [h]

theorem prologue_cases (env : InitEnv) (op : Op) (s : ProcState) :
    (ptrOf op s = true ∧ opPrologue env op s = .ok (s, false)) ∨
    (ptrOf op s = false ∧
      opPrologue env op s = (init env (setPtr op s)).map (fun t => (t, true))) := by
  cases op with
  | oLseek =>
    by_cases hp : s.realLseek
    · exact Or.inl ⟨hp, by simp [opPrologue, hp]⟩
    · exact Or.inr ⟨by simpa [ptrOf] using hp, by simp [opPrologue, setPtr, hp]⟩
  | oXstat =>
    by_cases hp : s.realStat
    · exact Or.inl ⟨hp, by simp [opPrologue, hp]⟩
    · exact Or.inr ⟨by simpa [ptrOf] using hp, by simp [opPrologue, setPtr, hp]⟩
  | oFxstat =>
    by_cases hp : s.realFstat
    · exact Or.inl ⟨hp, by simp [opPrologue, hp]⟩
    · exact Or.inr ⟨by simpa [ptrOf] using hp, by simp [opPrologue, setPtr, hp]⟩
  | oFallocate => exact Or.inl ⟨rfl, rfl⟩

theorem prologue_false_eq (env : InitEnv) (op : Op) (s t : ProcState)
    (h : opPrologue env op s = .ok (t, false)) : t = s := by
  rcases prologue_cases env op s with ⟨hp, he⟩ | ⟨hp, he⟩
  · have h2 := he.symm.trans h
    simp only [Except.ok.injEq, Prod.mk.injEq] at h2
    exact h2.1.symm
  · rw [he] at h
    cases hi : init env (setPtr op s) with
    | ok u => rw [hi] at h; simp [Except.map] at h
    | error e => rw [hi] at h; simp [Except.map] at h

theorem prologue_true_shape (env : InitEnv) (op : Op) (s t : ProcState)
    (h : opPrologue env op s = .ok (t, true)) :
    ptrOf op s = false ∧ init env (setPtr op s) = .ok t := by
  rcases prologue_cases env op s with ⟨hp, he⟩ | ⟨hp, he⟩
  · have h2 := he.symm.trans h
    simp at h2
  · refine ⟨hp, ?_⟩
    rw [he] at h
    cases hi : init env (setPtr op s) with
    | ok u =>
      rw [hi] at h
      have h2 : u = t := by simpa [Except.map] using h
      exact congrArg Except.ok h2
    | error e => rw [hi] at h; simp [Except.map] at h

theorem setPtr_self (op : Op) (s : ProcState) : ptrOf op (setPtr op s) = true := by
  cases op <;> simp [setPtr, ptrOf]

theorem setPtr_mono (op op' : Op) (s : ProcState) (hp : ptrOf op' s = true) :
    ptrOf op' (setPtr op s) = true := by
  cases op <;> cases op' <;> simp_all [setPtr, ptrOf]

theorem ptrsAny_setPtr (op : Op) (s : ProcState) (hp : ptrOf op s = false) :
    ptrsAny (setPtr op s) = true := by
  cases op <;> simp_all [setPtr, ptrOf, ptrsAny]

theorem init_ptrOf (env : InitEnv) (s t : ProcState) (h : init env s = .ok t) (op' : Op) :
    ptrOf op' t = ptrOf op' s := by
  have hf := init_ok_fields env s t h
  cases op' <;> simp [ptrOf, hf.1, hf.2.1, hf.2.2.1]

theorem prologue_mono (env : InitEnv) (op op' : Op) (s t : ProcState) (r : Bool)
    (h : opPrologue env op s = .ok (t, r)) (hp : ptrOf op' s = true) : ptrOf op' t = true := by
  cases r with
  | false =>
    rw [prologue_false_eq env op s t h]
    exact hp
  | true =>
    obtain ⟨hps, hi⟩ := prologue_true_shape env op s t h
    rw [init_ptrOf env _ t hi op']
    exact setPtr_mono op op' s hp

theorem resolveCount_of_ptr_true (env : InitEnv) (op : Op) (ops : List Op) :
    ∀ s : ProcState, ptrOf op s = true → resolveCount env op ops s = 0 := by
  induction ops with
  | nil => intro s _h; rfl
  | cons o rest ih =>
    intro s h
    unfold resolveCount
    cases hp : opPrologue env o s with
    | ok p =>
      obtain ⟨s2, r⟩ := p
      show (if o = op ∧ r = true then 1 else 0) + resolveCount env op rest s2 = 0
      have hnr : ¬(o = op ∧ r = true) := by
        rintro ⟨rfl, rfl⟩
        have h2 := (prologue_true_shape env o s s2 hp).1
        rw [h] at h2
        cases h2
      rw [if_neg hnr, ih s2 (prologue_mono env o op s s2 r hp h)]
    | error e =>
      show (if o = op then 1 else 0) = 0
      have hno : ¬ o = op := by
        rintro rfl
        rw [ptr_true_prologue env o s h] at hp
        cases hp
      rw [if_neg hno]

theorem resolveCount_le_one (env : InitEnv) (op : Op) (ops : List Op) :
    ∀ s : ProcState, resolveCount env op ops s ≤ 1 := by
  induction ops with
  | nil =>
    intro s
    show (0 : Nat) ≤ 1
    omega
  | cons o rest ih =>
    intro s
    unfold resolveCount
    cases hp : opPrologue env o s with
    | ok p =>
      obtain ⟨s2, r⟩ := p
      show (if o = op ∧ r = true then 1 else 0) + resolveCount env op rest s2 ≤ 1
      by_cases hc : o = op ∧ r = true
      · rw [if_pos hc]
        obtain ⟨ho, hr⟩ := hc
        subst ho
        subst hr
        obtain ⟨hps, hi⟩ := prologue_true_shape env o s s2 hp
        have h2 : ptrOf o s2 = true := by
          rw [init_ptrOf env _ s2 hi o]
          exact setPtr_self o s
        rw [resolveCount_of_ptr_true env o rest s2 h2]
      · rw [if_neg hc]
        have h2 := ih s2
        omega
    | error e =>
      show (if o = op then 1 else 0) ≤ 1
      split <;> omega

theorem runTrace_inv (env : InitEnv) (ops : List Op) :
    ∀ s t : ProcState, s.inited = ptrsAny s → runTrace env ops s = some t →
      t.inited = ptrsAny t := by
  induction ops with
  | nil =>
    intro s t hs h
    cases h
    exact hs
  | cons o rest ih =>
    intro s t hs h
    unfold runTrace at h
    cases hp : opPrologue env o s with
    | ok p =>
      obtain ⟨s2, r⟩ := p
      rw [hp] at h
      have h2 : runTrace env rest s2 = some t := h
      refine ih s2 t ?_ h2
      cases r with
      | false =>
        rw [prologue_false_eq env o s s2 hp]
        exact hs
      | true =>
        obtain ⟨hps, hi⟩ := prologue_true_shape env o s s2 hp
        have hf := init_ok_fields env _ s2 hi
        have h3 : ptrsAny (setPtr o s) = true := ptrsAny_setPtr o s hps
        have h4 : ptrsAny s2 = true := by
          unfold ptrsAny
          rw [hf.1, hf.2.1, hf.2.2.1]
          exact h3
        rw [hf.2.2.2, h4]
    | error e =>
      rw [hp] at h
      exact Option.noConfusion h

/-- C7: along any sequence of intercepted calls, each operation's real
pointer is resolved at most once (fallocate, which has no pointer, zero
times); a call that finds its pointer resolved changes nothing and re-runs
nothing (cached pointer, fixed window); any call that does perform a
resolution leaves the one-time setup done (flag set); and over whole traces
from process start, the setup has run exactly when some pointer has been
resolved - so the very first resolution is what triggers it. -/
theorem c7_lazy_resolution :
    (∀ (env : InitEnv) (op : Op) (ops : List Op) (s : ProcState),
      resolveCount env op ops s ≤ 1) ∧
    (∀ (env : InitEnv) (op : Op) (s : ProcState), ptrOf op s = true →
      opPrologue env op s = .ok (s, false)) ∧
    (∀ (env : InitEnv) (op : Op) (s t : ProcState),
      opPrologue env op s = .ok (t, true) → t.inited = true) ∧
    (∀ (env : InitEnv) (ops : List Op) (t : ProcState),
      runTrace env ops initialState = some t → t.inited = ptrsAny t) :=
  ⟨fun env op ops s => resolveCount_le_one env op ops s,
    fun env op s h => ptr_true_prologue env op s h,
    fun env op s t h =>
      (init_ok_fields env _ t (prologue_true_shape env op s t h).2).2.2.2,
    fun env ops t h => runTrace_inv env ops initialState t rfl h⟩

/-- Environment used by the concrete witnesses: identity (3, 5) and the
spec's example sector with partition index 1. -/
def envW : InitEnv := ⟨3, 5, sectorLS 2048 204800, 1⟩

/-- State after the first lseek call under envW: lseek pointer resolved,
setup done, identity and window recorded. -/
def stW : ProcState := ⟨true, false, false, true, 3, 5, some ⟨1048576, 104857600, 105906176⟩⟩

/-- C7 witness: concrete instances of the four conjuncts under envW. -/
theorem c7_lazy_resolution_w :
    resolveCount envW .oLseek [.oLseek, .oLseek] initialState ≤ 1 ∧
    opPrologue envW .oFallocate initialState = .ok (initialState, false) ∧
    stW.inited = true ∧
    stW.inited = ptrsAny stW :=
  ⟨c7_lazy_resolution.1 envW .oLseek [.oLseek, .oLseek] initialState,
    c7_lazy_resolution.2.1 envW .oFallocate initialState rfl,
    c7_lazy_resolution.2.2.1 envW .oLseek initialState stW (by decide),
    c7_lazy_resolution.2.2.2 envW [.oLseek] stW (by decide)⟩

/-- C10: the flag is tested-and-set before the body of init runs, so the
body receives a state whose flag is already true (second conjunct is the
unfolding of init on an unset flag); any init call on a state with the flag
set returns it unchanged without re-running the work (first conjunct); in
particular the nested stat-by-descriptor used during identity capture, which
routes through the interposed __fxstat prologue, merely resolves the fstat
pointer and its inner init returns at once - no recursive entry of the
one-time work (third conjunct). -/
theorem c10_no_reentry :
    (∀ (env : InitEnv) (t : ProcState),
      init env { t with inited := true } = .ok { t with inited := true }) ∧
    (∀ (env : InitEnv) (s : ProcState), s.inited = false →
      init env s = initWork env { s with inited := true }) ∧
    (∀ (env : InitEnv) (s : ProcState), s.inited = true → s.realFstat = false →
      opPrologue env .oFxstat s = .ok ({ s with realFstat := true }, true)) := by
  refine ⟨fun env t => ?_, fun env s hs => ?_, fun env s hs hf => ?_⟩
  · unfold init
    rw [if_pos rfl]
  · unfold init
    rw [if_neg (by simp [hs])]
  · show (if s.realFstat then Except.ok (s, false)
      else (init env { s with realFstat := true }).map (fun t => (t, true))) =
        .ok ({ s with realFstat := true }, true)
    rw [if_neg (by simp [hf])]
    unfold init
    rw [if_pos (show ({ s with realFstat := true } : ProcState).inited = true from hs)]
    rfl

/-- C10 witness: concrete instances of the three conjuncts under envW. -/
theorem c10_no_reentry_w :
    init envW { initialState with inited := true } = .ok { initialState with inited := true } ∧
    init envW initialState = initWork envW { initialState with inited := true } ∧
    opPrologue envW .oFxstat { initialState with inited := true } =
      .ok ({ initialState with inited := true, realFstat := true }, true) :=
  ⟨c10_no_reentry.1 envW initialState,
    c10_no_reentry.2.1 envW initialState rfl,
    c10_no_reentry.2.2 envW { initialState with inited := true } rfl rfl⟩

end Preload
